import Mathlib

/-
Verification of the chunked-extraction reconciliation pipeline of the
Contract_Extraction repository: a shallow embedding of
src/utils/merge_utils.py, src/utils/json_fix.py, src/utils/token_utils.py,
src/extractors/metadata_extractor.py and src/schemas/*.py, together with
theorems settling the specification's claims about them.

JSON-like Python values are embedded as the inductive type JVal; Python
dicts become association lists in insertion order (Python dicts preserve
insertion order and have unique keys; assignment to an existing key keeps
its position).  Numbers are modeled as integers: every number appearing in
the repository's spec and examples is an integer, and float literals are
treated as a parse failure by the embedded json.loads (noted there).
-/

/-- Values of Python's JSON universe: None, bool, int, str, list, dict. -/
inductive JVal where
  | null : JVal
  | bool : Bool → JVal
  | num : Int → JVal
  | str : String → JVal
  | arr : List JVal → JVal
  | obj : List (String × JVal) → JVal

/-- Python dicts in insertion order (keys unique in genuine Python dicts). -/
abbrev JObj := List (String × JVal)

/-- Python `d[k]` / `k in d` lookup: first binding of the key. -/
def lookupJ : JObj → String → Option JVal
  | [], _ => none
  | (k', v) :: rest, k => if k' = k then some v else lookupJ rest k

/-- Python `d[k] = v`: replace in place if the key exists, else append. -/
def setJ : JObj → String → JVal → JObj
  | [], k, v => [(k, v)]
  | (k', v') :: rest, k, v =>
    if k' = k then (k, v) :: rest else (k', v') :: setJ rest k v

/-- Python membership test `v in (None, [], {}, "", 0)` (which uses `==`,
so `False == 0` makes `False` a member, while `True == 1` is not). -/
def isEmptyVal : JVal → Bool
  | .null => true
  | .bool b => !b
  | .num n => n == 0
  | .str s => s.data.isEmpty
  | .arr xs => xs.isEmpty
  | .obj fs => fs.isEmpty

/-- Python truthiness `bool(v)` for JSON values. -/
def pyTruthy (v : JVal) : Bool := !(isEmptyVal v)

/-- Whitespace of `str.strip()` and of the regex class `\s` (ASCII part;
the claims only involve ASCII text). -/
def pyIsSpace (c : Char) : Bool :=
  c = ' ' || c = '\t' || c = '\n' || c = '\r' || c = '\x0b' || c = '\x0c'

/-- Python `s.strip()` on a character list. -/
def pyStripL (cs : List Char) : List Char :=
  ((cs.dropWhile pyIsSpace).reverse.dropWhile pyIsSpace).reverse

/-- Code-point comparison of strings, as Python's `<` on `str` and hence
as `sorted`/`sort_keys` order keys. -/
def charListLt : List Char → List Char → Bool
  | [], [] => false
  | [], _ :: _ => true
  | _ :: _, [] => false
  | a :: as, b :: bs => if a = b then charListLt as bs else decide (a.val < b.val)

/-- Insertion step of sorting rendered dict fields by key (for
`sort_keys=True`): each element is (raw key, rendered `"key": value`). -/
def insertPair : (List Char × List Char) → List (List Char × List Char) → List (List Char × List Char)
  | kv, [] => [kv]
  | kv, h :: t => if charListLt kv.1 h.1 then kv :: h :: t else h :: insertPair kv t

/-- Sort rendered dict fields by raw key, as `json.dumps(..., sort_keys=True)`
orders them.  (Equal keys cannot occur in a genuine Python dict.) -/
def sortPairs (l : List (List Char × List Char)) : List (List Char × List Char) :=
  l.foldr insertPair []

/-- Lower-case hex digit, as emitted by `json.dumps` escapes. -/
def hexDigit (n : Nat) : Char :=
  if n < 10 then Char.ofNat (48 + n) else Char.ofNat (87 + n)

/-- Four-digit hex rendering for a `\uXXXX` escape. -/
def toHex4 (n : Nat) : List Char :=
  [hexDigit (n / 4096 % 16), hexDigit (n / 256 % 16), hexDigit (n / 16 % 16), hexDigit (n % 16)]

/-- Escaping of one character in a `json.dumps` string (default
`ensure_ascii=True`: printable ASCII kept, the rest escaped). -/
def escapeChar (c : Char) : List Char :=
  if c = '"' then ['\\', '"']
  else if c = '\\' then ['\\', '\\']
  else if c = '\n' then ['\\', 'n']
  else if c = '\t' then ['\\', 't']
  else if c = '\r' then ['\\', 'r']
  else if c.toNat = 8 then ['\\', 'b']
  else if c.toNat = 12 then ['\\', 'f']
  else if c.toNat < 32 || (127 ≤ c.toNat && c.toNat < 65536) then
    '\\' :: 'u' :: toHex4 c.toNat
  else if 65536 ≤ c.toNat then
    ('\\' :: 'u' :: toHex4 (55296 + (c.toNat - 65536) / 1024)) ++
      ('\\' :: 'u' :: toHex4 (56320 + (c.toNat - 65536) % 1024))
  else [c]

/-- Rendering of a string literal inside `json.dumps` output. -/
def quoteStr (s : String) : List Char :=
  '"' :: s.data.foldr (fun c acc => escapeChar c ++ acc) ['"']

/-- Interleaving of a separator, as `", ".join`-style list rendering. -/
def joinSep (sep : List Char) : List (List Char) → List Char
  | [] => []
  | [x] => x
  | x :: y :: rest => x ++ sep ++ joinSep sep (y :: rest)

mutual

/-- Canonical serialization `json.dumps(item, sort_keys=True, default=str)`
used by `_dedup_list` as its dedup key, with the default separators `", "`
and `": "` (`default=str` never fires: every value of `JVal` is
JSON-serializable).  Dict fields are rendered in place and then sorted by
raw key, which agrees with sorting the unique-keyed dict first. -/
def dumps : JVal → List Char
  | .null => "null".data
  | .bool true => "true".data
  | .bool false => "false".data
  | .num n => (toString n).data
  | .str s => quoteStr s
  | .arr xs => ('[' :: joinSep [',', ' '] (dumpsList xs)) ++ [']']
  | .obj fs =>
    ('\x7b' :: joinSep [',', ' '] ((sortPairs (dumpsFields fs)).map Prod.snd)) ++ ['\x7d']

/-- Serializations of the elements of a JSON array, in order. -/
def dumpsList : List JVal → List (List Char)
  | [] => []
  | x :: xs => dumps x :: dumpsList xs

/-- Rendered fields of a JSON object: (raw key, rendered `"key": value`). -/
def dumpsFields : List (String × JVal) → List (List Char × List Char)
  | [] => []
  | (k, v) :: fs => (k.data, quoteStr k ++ (':' :: ' ' :: dumps v)) :: dumpsFields fs

end

/-- Membership in the `seen` set of the dedup loops (Python set membership
on strings / tuples is equality). -/
def memKey {κ : Type} [BEq κ] (k : κ) : List κ → Bool
  | [] => false
  | s :: rest => k == s || memKey k rest

/-- Shared loop shape of `_dedup_list`, `_dedup_parties` and
`_dedup_clauses`: walk the list, keep the first occurrence of each key
that passes the `keep` guard, remember keys in `seen`. -/
def dedupGo {κ : Type} [BEq κ] (key : JVal → κ) (keep : κ → Bool)
    (seen : List κ) : List JVal → List JVal
  | [] => []
  | x :: xs =>
    if keep (key x) && !(memKey (key x) seen) then
      x :: dedupGo key keep (key x :: seen) xs
    else
      dedupGo key keep seen xs

/-- Embeds `_dedup_list` of src/utils/merge_utils.py: drop duplicates by
canonical-JSON key, preserving order. -/
def dedup_list (lst : List JVal) : List JVal :=
  dedupGo dumps (fun _ => true) [] lst

/-- Dedup key of `_dedup_parties`: `party.get("name", "").strip().lower()`.
On a non-dict party or a non-string name Python would raise (AttributeError)
before deduplicating; those inputs are outside the pipeline's contract and
are mapped to the empty key here. `Char.toLower` is the ASCII lowering;
the claims only involve ASCII names. -/
def partyKeyOf (party : JVal) : List Char :=
  match party with
  | .obj fs =>
    match lookupJ fs "name" with
    | none => []
    | some (.str s) => (pyStripL s.data).map Char.toLower
    | some _ => []
  | _ => []

/-- Embeds `_dedup_parties` of src/utils/merge_utils.py: keep the first
occurrence of each non-empty lower-cased trimmed name. -/
def dedup_parties (parties : List JVal) : List JVal :=
  dedupGo partyKeyOf (fun k => !k.isEmpty) [] parties

/-- Dedup key of `_dedup_clauses`:
`(clause.get("name", "").strip().lower(), bool(clause.get("present")))`.
Same convention as `partyKeyOf` for inputs on which Python would raise. -/
def clauseKeyOf (clause : JVal) : List Char × Bool :=
  match clause with
  | .obj fs =>
    ((match lookupJ fs "name" with
      | none => []
      | some (.str s) => (pyStripL s.data).map Char.toLower
      | some _ => []),
     (match lookupJ fs "present" with
      | none => false
      | some v => pyTruthy v))
  | _ => ([], false)

/-- Embeds `_dedup_clauses` of src/utils/merge_utils.py. -/
def dedup_clauses (clauses : List JVal) : List JVal :=
  dedupGo clauseKeyOf (fun _ => true) [] clauses

/-- Embeds `_postprocess_contract` of src/utils/merge_utils.py: dedup the
`parties` and `clauses` sub-lists when present and list-valued. -/
def postprocess_contract (data : JObj) : JObj :=
  let d1 :=
    match lookupJ data "parties" with
    | some (.arr ps) => setJ data "parties" (.arr (dedup_parties ps))
    | _ => data
  match lookupJ d1 "clauses" with
  | some (.arr cs) => setJ d1 "clauses" (.arr (dedup_clauses cs))
  | _ => d1

/-- One step of the key loop inside `merge_json_objects`: skip empty
values; first non-empty value seeds the key; list/list concatenates and
dedups; dict/dict updates with the non-empty entries of the new dict;
anything else keeps the existing value. -/
def mergeOne (result : JObj) (kv : String × JVal) : JObj :=
  if isEmptyVal kv.2 then result
  else
    match lookupJ result kv.1 with
    | none => setJ result kv.1 kv.2
    | some old =>
      if isEmptyVal old then setJ result kv.1 kv.2
      else
        match kv.2, old with
        | .arr vs, .arr olds => setJ result kv.1 (.arr (dedup_list (olds ++ vs)))
        | .obj vfs, .obj ofs =>
          setJ result kv.1
            (.obj ((vfs.filter (fun p => !isEmptyVal p.2)).foldl (fun m p => setJ m p.1 p.2) ofs))
        | _, _ => result

/-- Embeds `merge_json_objects` of src/utils/merge_utils.py. -/
def merge_json_objects (objs : List JObj) : JObj :=
  if objs.isEmpty then []
  else postprocess_contract (objs.foldl (fun acc o => o.foldl mergeOne acc) [])

/-- Whitespace accepted between JSON tokens by `json.loads`. -/
def isJsonWs (c : Char) : Bool := c = ' ' || c = '\t' || c = '\n' || c = '\r'

/-- Consume leading JSON whitespace. -/
def skipWs : List Char → List Char
  | [] => []
  | c :: cs => if isJsonWs c then skipWs cs else c :: cs

/-- Hex digit test for `\uXXXX` escapes. -/
def isHexDigit (c : Char) : Bool :=
  ('0' ≤ c && c ≤ '9') || ('a' ≤ c && c ≤ 'f') || ('A' ≤ c && c ≤ 'F')

/-- Hex digit value (only meaningful on hex digits). -/
def hexVal (c : Char) : Nat :=
  if c ≤ '9' then c.toNat - 48 else if c ≤ 'F' then c.toNat - 55 else c.toNat - 87

/-- Value of four hex digits, or `none` when one is not a hex digit. -/
def hex4 (a b c d : Char) : Option Nat :=
  if isHexDigit a && isHexDigit b && isHexDigit c && isHexDigit d then
    some (hexVal a * 4096 + hexVal b * 256 + hexVal c * 16 + hexVal d)
  else none

/-- Body of a JSON string literal after the opening quote, in the strict
mode of `json.loads`: unescaped control characters are rejected; `\uXXXX`
surrogate pairs are combined (a lone surrogate, which CPython would keep
as an unpaired code unit, is not representable in `Char` and is rejected;
no claim involves one). -/
def parseStrGo : List Char → List Char → Option (List Char × List Char)
  | acc, '"' :: rest => some (acc.reverse, rest)
  | acc, '\\' :: 'u' :: a :: b :: c :: d :: rest =>
    (match hex4 a b c d with
     | none => none
     | some n =>
       if 55296 ≤ n && n ≤ 56319 then
         match rest with
         | '\\' :: 'u' :: a2 :: b2 :: c2 :: d2 :: rest2 =>
           (match hex4 a2 b2 c2 d2 with
            | some n2 =>
              if 56320 ≤ n2 && n2 ≤ 57343 then
                parseStrGo (Char.ofNat (65536 + (n - 55296) * 1024 + (n2 - 56320)) :: acc) rest2
              else none
            | none => none)
         | _ => none
       else if 56320 ≤ n && n ≤ 57343 then none
       else parseStrGo (Char.ofNat n :: acc) rest)
  | acc, '\\' :: e :: rest =>
    (if e = '"' then parseStrGo ('"' :: acc) rest
     else if e = '\\' then parseStrGo ('\\' :: acc) rest
     else if e = '/' then parseStrGo ('/' :: acc) rest
     else if e = 'b' then parseStrGo ('\x08' :: acc) rest
     else if e = 'f' then parseStrGo ('\x0c' :: acc) rest
     else if e = 'n' then parseStrGo ('\n' :: acc) rest
     else if e = 'r' then parseStrGo ('\r' :: acc) rest
     else if e = 't' then parseStrGo ('\t' :: acc) rest
     else none)
  | acc, c :: rest => if c.toNat < 32 then none else parseStrGo (c :: acc) rest
  | _, [] => none

/-- Consume a run of decimal digits, accumulating their value. -/
def digitsToNat (acc : Nat) : List Char → Nat × List Char
  | c :: rest =>
    if '0' ≤ c && c ≤ '9' then digitsToNat (acc * 10 + (c.toNat - 48)) rest
    else (acc, c :: rest)
  | [] => (acc, [])

/-- Non-negative JSON integer: `0`, or a nonzero digit followed by digits
(the JSON grammar forbids leading zeros, so after `0` no digit is taken
and a stray digit fails as trailing data, exactly as in `json.loads`). -/
def parseNumPos : List Char → Option (Nat × List Char)
  | '0' :: rest => some (0, rest)
  | c :: rest =>
    if '1' ≤ c && c ≤ '9' then some (digitsToNat (c.toNat - 48) rest) else none
  | [] => none

/-- Reject a fraction or exponent after the integer part: float literals
are outside this integer-valued embedding (no claim involves one), while
`json.loads` would produce a float. -/
def numGuard (n : Int) (rest : List Char) : Option (JVal × List Char) :=
  match rest with
  | c :: _ => if c = '.' || c = 'e' || c = 'E' then none else some (.num n, rest)
  | [] => some (.num n, [])

/-- JSON number in the integer fragment (`NaN`/`Infinity`, which
`json.loads` also accepts, are likewise outside the fragment). -/
def parseNum : List Char → Option (JVal × List Char)
  | '-' :: rest =>
    (match parseNumPos rest with
     | some (n, rest') => numGuard (-(n : Int)) rest'
     | none => none)
  | cs =>
    match parseNumPos cs with
    | some (n, rest') => numGuard (n : Int) rest'
    | none => none

/-- Position of the recursive-descent parser: a value, the tail of an
array after its first element slot, or the tail of an object. -/
inductive PMode where
  | val : PMode
  | arrTail : List JVal → PMode
  | objTail : JObj → PMode

/-- Recursive-descent core of `json.loads`, fueled for termination (the
fuel chosen by `loads` always suffices: every recursive call follows the
consumption of at least one input character).  Duplicate object keys
follow Python dict insertion semantics via `setJ` (last value wins, first
position kept). -/
def parseF : Nat → PMode → List Char → Option (JVal × List Char)
  | 0, _, _ => none
  | fuel + 1, .val, cs =>
    (match skipWs cs with
     | 'n' :: 'u' :: 'l' :: 'l' :: rest => some (.null, rest)
     | 't' :: 'r' :: 'u' :: 'e' :: rest => some (.bool true, rest)
     | 'f' :: 'a' :: 'l' :: 's' :: 'e' :: rest => some (.bool false, rest)
     | '"' :: rest =>
       (match parseStrGo [] rest with
        | some (s, rest') => some (.str (String.mk s), rest')
        | none => none)
     | '[' :: rest =>
       (match skipWs rest with
        | ']' :: rest' => some (.arr [], rest')
        | _ => parseF fuel (.arrTail []) rest)
     | '\x7b' :: rest =>
       (match skipWs rest with
        | '\x7d' :: rest' => some (.obj [], rest')
        | _ => parseF fuel (.objTail []) rest)
     | cs' => parseNum cs')
  | fuel + 1, .arrTail acc, cs =>
    (match parseF fuel .val cs with
     | some (v, rest) =>
       (match skipWs rest with
        | ',' :: rest' => parseF fuel (.arrTail (v :: acc)) rest'
        | ']' :: rest' => some (.arr (v :: acc).reverse, rest')
        | _ => none)
     | none => none)
  | fuel + 1, .objTail acc, cs =>
    (match skipWs cs with
     | '"' :: rest =>
       (match parseStrGo [] rest with
        | some (kcs, rest1) =>
          (match skipWs rest1 with
           | ':' :: rest2 =>
             (match parseF fuel .val rest2 with
              | some (v, rest3) =>
                (match skipWs rest3 with
                 | ',' :: rest4 => parseF fuel (.objTail (setJ acc (String.mk kcs) v)) rest4
                 | '\x7d' :: rest4 => some (.obj (setJ acc (String.mk kcs) v), rest4)
                 | _ => none)
              | none => none)
           | _ => none)
        | none => none)
     | _ => none)

/-- Embeds `json.loads` (restricted to the integer-numbered fragment):
parse one value, then require only whitespace to follow. -/
def loads (s : String) : Option JVal :=
  match parseF (2 * s.data.length + 2) .val s.data with
  | some (v, rest) => if (skipWs rest).isEmpty then some v else none
  | none => none

/-- Word characters `[a-zA-Z0-9_]` of the fence and key regexes. -/
def isWordChar (c : Char) : Bool :=
  c = '_' || ('0' ≤ c && c ≤ '9') || ('a' ≤ c && c ≤ 'z') || ('A' ≤ c && c ≤ 'Z')

/-- Substitution loop of the fence regex: every occurrence of a
triple-backtick, together with an immediately following run of word
characters (the greedy language tag), is deleted.  The fuel is the input
length; every step consumes at least one character. -/
def stripFencesGo : Nat → List Char → List Char
  | 0, _ => []
  | _ + 1, [] => []
  | fuel + 1, '`' :: '`' :: '`' :: rest => stripFencesGo fuel (rest.dropWhile isWordChar)
  | fuel + 1, c :: rest => c :: stripFencesGo fuel rest

/-- Embeds `_strip_markdown_fence` of src/utils/json_fix.py:
`_JSON_FENCE_RE.sub("", text).strip()`. -/
def strip_markdown_fence (s : String) : String :=
  String.mk (pyStripL (stripFencesGo s.data.length s.data))

/-- Substitution loop of `re.sub(r",\s*([}\]])", r"\\1", s)`: a comma whose
next non-whitespace character is a closing brace or bracket matches, the
whole match (closing character included) being replaced by the replacement
template `r"\\1"` — which escapes the backslash and therefore inserts the
two literal characters backslash and `1`, not the captured group. -/
def rmTrailGo : Nat → List Char → List Char
  | 0, _ => []
  | _ + 1, [] => []
  | fuel + 1, ',' :: rest =>
    (match rest.dropWhile pyIsSpace with
     | '\x7d' :: tail => '\\' :: '1' :: rmTrailGo fuel tail
     | ']' :: tail => '\\' :: '1' :: rmTrailGo fuel tail
     | _ => ',' :: rmTrailGo fuel rest)
  | fuel + 1, c :: rest => c :: rmTrailGo fuel rest

/-- Embeds `_remove_trailing_commas` of src/utils/json_fix.py. -/
def remove_trailing_commas (s : String) : String :=
  String.mk (rmTrailGo s.data.length s.data)

/-- Substitution loop of
`re.sub(r'("\s*)("[a-zA-Z0-9_]+"\s*:)', r'", \2', s)`: a quote, optional
whitespace, then a quoted word followed by optional whitespace and a
colon; the whole match is replaced by `", ` followed by the second group
(the quoted word, its trailing whitespace and the colon). -/
def addCommasGo : Nat → List Char → List Char
  | 0, _ => []
  | _ + 1, [] => []
  | fuel + 1, '"' :: rest =>
    (match rest.dropWhile pyIsSpace with
     | '"' :: r2 =>
       (let word := r2.takeWhile isWordChar
        match r2.dropWhile isWordChar with
        | '"' :: r4 =>
          (if word.isEmpty then '"' :: addCommasGo fuel rest
           else
             match (r4.dropWhile pyIsSpace) with
             | ':' :: tail =>
               '"' :: ',' :: ' ' :: '"' ::
                 (word ++ ('"' :: (r4.takeWhile pyIsSpace ++ (':' :: addCommasGo fuel tail))))
             | _ => '"' :: addCommasGo fuel rest)
        | _ => '"' :: addCommasGo fuel rest)
     | _ => '"' :: addCommasGo fuel rest)
  | fuel + 1, c :: rest => c :: addCommasGo fuel rest

/-- Embeds `_add_missing_commas` of src/utils/json_fix.py. -/
def add_missing_commas (s : String) : String :=
  String.mk (addCommasGo s.data.length s.data)

/-- The heuristics of `CLEAN_STEPS`, applied in order. -/
def clean_steps (s : String) : String :=
  add_missing_commas (remove_trailing_commas (strip_markdown_fence s))

/-- Collapse a parsed JSON null into the failure result: `json.loads`
maps JSON null to the Python value None, which is also what
`fix_and_load` returns on failure, so callers of `fix_and_load` cannot
tell the two apart — its observable result is a single None for both. -/
def collapseNull : Option JVal → Option JVal
  | some .null => none
  | o => o

/-- Embeds `fix_and_load` of src/utils/json_fix.py: try `json.loads`; on
an exception run the heuristics and retry; on a second exception return
None.  The returned Python object is the same None both on failure and
when the successful parse produced JSON null, hence the final collapse. -/
def fix_and_load (blob : String) : Option JVal :=
  collapseNull
    (match loads blob with
     | some v => some v
     | none => loads (clean_steps blob))

/-- Embeds `_extract_json` of src/extractors/metadata_extractor.py: the
substring from the first `\x7b` to the last `\x7d`, or None. -/
def extract_json (blob : String) : Option String :=
  match blob.data.findIdx? (· = '\x7b'), blob.data.reverse.findIdx? (· = '\x7d') with
  | some start, some revIdx =>
    let endIdx := blob.data.length - 1 - revIdx
    if endIdx ≤ start then none
    else some (String.mk ((blob.data.drop start).take (endIdx + 1 - start)))
  | _, _ => none

/-- Embeds the `Party` model of src/schemas/generic.py. -/
structure Party where
  role : String
  name : String

/-- Embeds the `Clause` model of src/schemas/generic.py. -/
structure Clause where
  name : String
  present : Bool
  text : Option String

/-- Embeds `GenericContractSchema` of src/schemas/generic.py (a pydantic
v2 model: no `model_config`, so unknown keys follow the default
`extra="ignore"` behaviour of its validator, modeled in the constructors
below). -/
structure GenericContractSchema where
  contract_type : String
  parties : List Party
  effective_date : Option String
  termination_date : Option String
  governing_law : Option String
  renewal_terms : Option String
  clauses : List Clause
  custom_fields : JObj

/-- Pydantic validation of a required `str` field (v2 does not coerce
non-strings to `str`). -/
def vStr : Option JVal → Except String String
  | some (.str s) => .ok s
  | some _ => .error "string_type"
  | none => .error "missing"

/-- Pydantic validation of a `str` field carrying a default. -/
def vStrDefault (d : String) : Option JVal → Except String String
  | none => .ok d
  | some (.str s) => .ok s
  | some _ => .error "string_type"

/-- Pydantic validation of an `Optional[str]` field defaulting to None. -/
def vOptStr : Option JVal → Except String (Option String)
  | none => .ok none
  | some .null => .ok none
  | some (.str s) => .ok (some s)
  | some _ => .error "string_type"

/-- Pydantic validation of an `Optional[bool]` field defaulting to None
(the lax coercions from 0/1 and "true"-like strings, which pydantic would
also accept, are outside every claim and not modeled). -/
def vOptBool : Option JVal → Except String (Option Bool)
  | none => .ok none
  | some .null => .ok none
  | some (.bool b) => .ok (some b)
  | some _ => .error "bool_type"

/-- Pydantic validation of one `Party` element (unknown keys ignored). -/
def vParty : JVal → Except String Party
  | .obj fs => do
    let role ← vStr (lookupJ fs "role")
    let name ← vStr (lookupJ fs "name")
    .ok ⟨role, name⟩
  | _ => .error "model_type"

/-- Pydantic validation of one `Clause` element (unknown keys ignored;
`present` is a required `bool`, with the same lax-coercion caveat as
`vOptBool`). -/
def vClause : JVal → Except String Clause
  | .obj fs => do
    let nm ← vStr (lookupJ fs "name")
    let pr ← (match lookupJ fs "present" with
      | some (.bool b) => Except.ok b
      | some _ => Except.error "bool_type"
      | none => Except.error "missing")
    let tx ← vOptStr (lookupJ fs "text")
    .ok ⟨nm, pr, tx⟩
  | _ => .error "model_type"

/-- Pydantic validation of a `List[...]` field with `default_factory=list`. -/
def vList {α : Type} (f : JVal → Except String α) : Option JVal → Except String (List α)
  | none => .ok []
  | some (.arr xs) => xs.mapM f
  | some _ => .error "list_type"

/-- Pydantic validation of `custom_fields : Dict[str, Any]` with
`default_factory=dict`. -/
def vCustom : Option JVal → Except String JObj
  | none => .ok []
  | some (.obj fs) => .ok fs
  | some _ => .error "dict_type"

/-- Construction of the base fields shared by every schema variant, with
the `contract_type` validation passed in (required for the generic shape,
defaulted for the typed variants).  Keys other than the declared fields
are never consulted: pydantic's default `extra="ignore"` discards them. -/
def mkGenericFrom (ct : Except String String) (data : JObj) : Except String GenericContractSchema := do
  let c ← ct
  let ps ← vList vParty (lookupJ data "parties")
  let ed ← vOptStr (lookupJ data "effective_date")
  let td ← vOptStr (lookupJ data "termination_date")
  let gl ← vOptStr (lookupJ data "governing_law")
  let rt ← vOptStr (lookupJ data "renewal_terms")
  let cl ← vList vClause (lookupJ data "clauses")
  let cf ← vCustom (lookupJ data "custom_fields")
  .ok ⟨c, ps, ed, td, gl, rt, cl, cf⟩

/-- Embeds `GenericContractSchema(**data)`: pydantic construction of the
generic shape from an untyped mapping. -/
def mkGenericContractSchema (data : JObj) : Except String GenericContractSchema :=
  mkGenericFrom (vStr (lookupJ data "contract_type")) data

/-- Result of `_extract_single`: the instance is a subclass of the
generic schema, so it carries the base record plus the variant's own
extra fields (empty for the generic shape itself). -/
structure ExtractionOut where
  record : GenericContractSchema
  variant_fields : JObj

/-- JSON image of an `Optional[str]` attribute. -/
def jOfOptStr : Option String → JVal
  | none => .null
  | some s => .str s

/-- JSON image of an `Optional[bool]` attribute. -/
def jOfOptBool : Option Bool → JVal
  | none => .null
  | some b => .bool b

/-- Embeds `EmploymentSchema(**data)` of src/schemas/employment.py:
the generic fields with `contract_type` defaulting to "employment", plus
four `Optional[str]` extras. -/
def mkEmploymentSchema (data : JObj) : Except String ExtractionOut := do
  let base ← mkGenericFrom (vStrDefault "employment" (lookupJ data "contract_type")) data
  let a ← vOptStr (lookupJ data "employee_name")
  let b ← vOptStr (lookupJ data "employer_name")
  let c ← vOptStr (lookupJ data "compensation")
  let d ← vOptStr (lookupJ data "probation_period")
  .ok ⟨base,
    [("employee_name", jOfOptStr a), ("employer_name", jOfOptStr b),
     ("compensation", jOfOptStr c), ("probation_period", jOfOptStr d)]⟩

/-- Embeds `NDASchema(**data)` of src/schemas/nda.py. -/
def mkNDASchema (data : JObj) : Except String ExtractionOut := do
  let base ← mkGenericFrom (vStrDefault "nda" (lookupJ data "contract_type")) data
  let a ← vOptStr (lookupJ data "confidentiality_period")
  let b ← vOptBool (lookupJ data "non_compete")
  .ok ⟨base, [("confidentiality_period", jOfOptStr a), ("non_compete", jOfOptBool b)]⟩

/-- Embeds `MSASchema(**data)` of src/schemas/service_agreement.py. -/
def mkMSASchema (data : JObj) : Except String ExtractionOut := do
  let base ← mkGenericFrom (vStrDefault "service agreement" (lookupJ data "contract_type")) data
  let a ← vOptStr (lookupJ data "payment_terms")
  let b ← vOptBool (lookupJ data "indemnification")
  let c ← vOptStr (lookupJ data "limitation_of_liability")
  .ok ⟨base,
    [("payment_terms", jOfOptStr a), ("indemnification", jOfOptBool b),
     ("limitation_of_liability", jOfOptStr c)]⟩

/-- The schema-resolution key `data.get("contract_type", "").lower()` of
`_extract_single`; a present non-string value makes Python raise at
`.lower()`, modeled as an error.  `Char.toLower` is the ASCII lowering. -/
def resolveSchemaKey (data : JObj) : Except String String :=
  match lookupJ data "contract_type" with
  | none => .ok ""
  | some (.str s) => .ok (String.mk (s.data.map Char.toLower))
  | some _ => .error "AttributeError"

/-- The minimal record substituted on repair failure:
`GenericContractSchema(contract_type="unknown", parties=[])`. -/
def fallback_record : GenericContractSchema :=
  ⟨"unknown", [], none, none, none, none, [], []⟩

/-- The blob handed to repair by `_extract_single`:
`_extract_json(raw) or raw` (Python `or` also falls through on an empty
extracted string, which `_extract_json` cannot actually produce). -/
def single_blob (raw : String) : String :=
  match extract_json raw with
  | some s => if s.data.isEmpty then raw else s
  | none => raw

/-- Embeds the response-processing tail of `_extract_single` of
src/extractors/metadata_extractor.py, from the oracle's raw text to the
typed record: extract the bracketed substring, repair-parse it, fall back
to the minimal record when `data is None` (repair failure, and likewise a
parsed JSON null, whose Python image is that same None), otherwise
resolve the schema from `SCHEMA_MAP` and construct it.  A parse result
that is a non-null non-object makes Python raise at `data.get`, modeled
as an error.  (The `some .null` arm is unreachable: `fix_and_load`
collapses a parsed null into `none`; it is routed like Python's
`if data is None` branch for completeness.) -/
def extract_single_record (raw : String) : Except String ExtractionOut :=
  match fix_and_load (single_blob raw) with
  | none => .ok ⟨fallback_record, []⟩
  | some .null => .ok ⟨fallback_record, []⟩
  | some (.obj data) =>
    (match resolveSchemaKey data with
     | .error e => .error e
     | .ok key =>
       if key = "employment" then mkEmploymentSchema data
       else if key = "nda" then mkNDASchema data
       else if key = "service agreement" then mkMSASchema data
       else (mkGenericContractSchema data).map (fun g => ⟨g, []⟩))
  | some _ => .error "AttributeError"

/-- Character-window slicing `[text[i:i+step] for i in range(0, len(text), step)]`
(fuel = input length; every step with a positive `step` drops at least one
character). -/
def pySlicesGo : Nat → List Char → Nat → List (List Char)
  | 0, _, _ => []
  | fuel + 1, cs, step => if cs.isEmpty then [] else cs.take step :: pySlicesGo fuel (cs.drop step) step

/-- Embeds the degraded (character) mode of `split_by_tokens` of
src/utils/token_utils.py: character windows of size `max_tokens * 4`. -/
def split_by_tokens_degraded (text : String) (max_tokens : Nat) : List String :=
  (pySlicesGo text.data.length text.data (max_tokens * 4)).map String.mk

/-- Reference form of the first-occurrence-wins dedup loops: keep a head
passing the `keep` guard and delete its later key-duplicates, skip a head
failing the guard.  Used to state what `_dedup_list` and `_dedup_parties`
compute. -/
def dedupSpecGo {κ : Type} [BEq κ] (key : JVal → κ) (keep : κ → Bool) : List JVal → List JVal
  | [] => []
  | x :: xs =>
    if keep (key x) then
      x :: dedupSpecGo key keep (xs.filter (fun y => !(key y == key x)))
    else
      dedupSpecGo key keep xs
termination_by l => l.length
decreasing_by
  · simp only [List.length_cons]
    exact Nat.lt_succ_of_le (List.length_filter_le _ _)
  · simp only [List.length_cons]
    exact Nat.lt_succ_self _

/-- Recognizer of the Python literal `False` among JSON values. -/
def isFalseLit : JVal → Bool
  | .bool false => true
  | _ => false

/-- The declared field names of `GenericContractSchema`. -/
def genericFieldKeys : List String :=
  ["contract_type", "parties", "effective_date", "termination_date",
   "governing_law", "renewal_terms", "clauses", "custom_fields"]

theorem lookupJ_eq_none (o : JObj) (k : String) (h : k ∉ o.map Prod.fst) :
    lookupJ o k = none := by
  induction o with
  | nil => rfl
  | cons hd tl ih =>
    obtain ⟨k', v⟩ := hd
    simp only [List.map_cons, List.mem_cons] at h
    push_neg at h
    simp only [lookupJ]
    rw [if_neg (fun he => h.1 he.symm), ih h.2]

theorem setJ_eq_append (o : JObj) (k : String) (v : JVal) (h : k ∉ o.map Prod.fst) :
    setJ o k v = o ++ [(k, v)] := by
  induction o with
  | nil => rfl
  | cons hd tl ih =>
    obtain ⟨k', v'⟩ := hd
    simp only [List.map_cons, List.mem_cons] at h
    push_neg at h
    simp only [setJ]
    rw [if_neg (fun he => h.1 he.symm), ih h.2]
    rfl

theorem mergeOne_empty (acc : JObj) (kv : String × JVal) (h : isEmptyVal kv.2 = true) :
    mergeOne acc kv = acc := by
  simp [mergeOne, h]

theorem foldl_mergeOne_nodup : ∀ (r : JObj) (acc : JObj),
    (∀ k ∈ r.map Prod.fst, k ∉ acc.map Prod.fst) →
    (r.map Prod.fst).Nodup →
    r.foldl mergeOne acc = acc ++ r.filter (fun kv => !isEmptyVal kv.2) := by
  intro r
  induction r with
  | nil => intro acc _ _; simp
  | cons hd tl ih =>
    intro acc hdisj hnd
    obtain ⟨k, v⟩ := hd
    simp only [List.map_cons, List.nodup_cons] at hnd
    simp only [List.foldl_cons]
    by_cases he : isEmptyVal v = true
    · rw [mergeOne_empty acc (k, v) he]
      rw [ih acc (fun k' hk' => hdisj k' (by simp [hk'])) hnd.2]
      simp [List.filter_cons, he]
    · have hk : k ∉ acc.map Prod.fst := hdisj k (by simp)
      have hv : isEmptyVal v = false := by simpa using he
      have h1 : mergeOne acc (k, v) = acc ++ [(k, v)] := by
        simp only [mergeOne, hv, Bool.false_eq_true, if_false]
        rw [lookupJ_eq_none acc k hk]
        exact setJ_eq_append acc k v hk
      rw [h1]
      rw [ih (acc ++ [(k, v)]) ?_ hnd.2]
      · simp [List.filter_cons, hv, List.append_assoc]
      · intro k' hk'
        have h2 : k' ∉ acc.map Prod.fst := hdisj k' (by simp [hk'])
        have h3 : k' ≠ k := fun he' => hnd.1 (by rw [he'] at hk'; exact hk')
        simp only [List.map_append, List.mem_append, List.map_cons, List.map_nil,
          List.mem_singleton]
        rintro (hc | hc)
        · exact h2 hc
        · exact h3 hc

theorem dedupGo_eq_spec {κ : Type} [BEq κ] (key : JVal → κ) (keep : κ → Bool) :
    ∀ (l : List JVal) (seen : List κ),
      dedupGo key keep seen l
        = dedupSpecGo key keep (l.filter (fun y => !(memKey (key y) seen))) := by
  intro l
  induction l with
  | nil =>
    intro seen
    simp only [List.filter_nil, dedupGo, dedupSpecGo]
  | cons x xs ih =>
    intro seen
    by_cases hm : memKey (key x) seen = true
    · rw [List.filter_cons_of_neg (by simp [hm])]
      simp only [dedupGo, hm, Bool.not_true, Bool.and_false, Bool.false_eq_true, if_false]
      exact ih seen
    · have hm' : memKey (key x) seen = false := by simpa using hm
      rw [List.filter_cons_of_pos (by simp [hm'])]
      have hfuse : xs.filter (fun y => !(memKey (key y) (key x :: seen)))
          = xs.filter (fun a => (!(key a == key x)) && (!(memKey (key a) seen))) := by
        apply List.filter_congr
        intro y _
        show (!((key y == key x) || memKey (key y) seen)) = _
        rw [Bool.not_or]
      by_cases hkp : keep (key x) = true
      · calc dedupGo key keep seen (x :: xs)
            = x :: dedupGo key keep (key x :: seen) xs := by
              simp only [dedupGo, hm', hkp, Bool.not_false, Bool.and_true, if_true]
          _ = x :: dedupSpecGo key keep (xs.filter (fun y => !(memKey (key y) (key x :: seen)))) := by
              rw [ih (key x :: seen)]
          _ = x :: dedupSpecGo key keep
                ((xs.filter (fun y => !(memKey (key y) seen))).filter (fun y => !(key y == key x))) := by
              rw [hfuse, List.filter_filter]
          _ = dedupSpecGo key keep (x :: xs.filter (fun y => !(memKey (key y) seen))) := by
              rw [dedupSpecGo, if_pos hkp]
      · have hkp' : keep (key x) = false := by simpa using hkp
        simp only [dedupGo, hkp', Bool.false_and, Bool.false_eq_true, if_false]
        rw [dedupSpecGo, if_neg (by simp [hkp'])]
        exact ih seen

theorem lookupJ_filter (data : JObj) (p : String × JVal → Bool) (k : String)
    (hp : ∀ v : JVal, p (k, v) = true) :
    lookupJ (data.filter p) k = lookupJ data k := by
  induction data with
  | nil => rfl
  | cons hd tl ih =>
    obtain ⟨k', v'⟩ := hd
    by_cases hk : k' = k
    · subst hk
      rw [List.filter_cons_of_pos (hp v')]
      simp [lookupJ]
    · cases hpv : p (k', v')
      · rw [List.filter_cons_of_neg (by simp [hpv])]
        rw [ih]
        simp [lookupJ, hk]
      · rw [List.filter_cons_of_pos (by simp [hpv])]
        simp [lookupJ, hk, ih]

theorem mergeOne_falseLit (acc : JObj) (kv : String × JVal) (h : isFalseLit kv.2 = true) :
    mergeOne acc kv = acc := by
  obtain ⟨k, v⟩ := kv
  cases v with
  | bool b =>
    cases b with
    | false => simp [mergeOne, isEmptyVal]
    | true => simp [isFalseLit] at h
  | null => simp [isFalseLit] at h
  | num n => simp [isFalseLit] at h
  | str s => simp [isFalseLit] at h
  | arr xs => simp [isFalseLit] at h
  | obj fs => simp [isFalseLit] at h

theorem foldl_mergeOne_filter_false : ∀ (o : JObj) (acc : JObj),
    (o.filter (fun kv => !isFalseLit kv.2)).foldl mergeOne acc = o.foldl mergeOne acc := by
  intro o
  induction o with
  | nil => intro acc; rfl
  | cons hd tl ih =>
    intro acc
    cases hf : isFalseLit hd.2
    · rw [List.filter_cons_of_pos (by simp [hf])]
      simp only [List.foldl_cons]
      exact ih (mergeOne acc hd)
    · rw [List.filter_cons_of_neg (by simp [hf])]
      simp only [List.foldl_cons, mergeOne_falseLit acc hd hf]
      exact ih acc

theorem foldl_objs_filter_false : ∀ (l : List JObj) (acc : JObj),
    (l.map (fun o => o.filter (fun kv => !isFalseLit kv.2))).foldl (fun acc o => o.foldl mergeOne acc) acc
      = l.foldl (fun acc o => o.foldl mergeOne acc) acc := by
  intro l
  induction l with
  | nil => intro acc; rfl
  | cons h2 t2 ih2 =>
    intro acc
    simp only [List.map_cons, List.foldl_cons, foldl_mergeOne_filter_false]
    exact ih2 _

theorem foldl_append_mkString (ll : List (List Char)) : ∀ acc : List Char,
    List.foldl (· ++ ·) (String.mk acc) (ll.map String.mk) = String.mk (acc ++ ll.flatten) := by
  induction ll with
  | nil => intro acc; simp [List.flatten]
  | cons hd tl ih =>
    intro acc
    simp only [List.map_cons, List.foldl_cons]
    rw [show String.mk acc ++ String.mk hd = String.mk (acc ++ hd) from rfl, ih]
    simp [List.flatten, List.append_assoc]

theorem pySlicesGo_flatten (step : Nat) (hstep : 0 < step) :
    ∀ (fuel : Nat) (cs : List Char), cs.length ≤ fuel →
      (pySlicesGo fuel cs step).flatten = cs := by
  intro fuel
  induction fuel with
  | zero =>
    intro cs h
    have : cs = [] := List.eq_nil_of_length_eq_zero (Nat.le_zero.mp h)
    subst this
    rfl
  | succ f ih =>
    intro cs h
    simp only [pySlicesGo]
    cases hcs : cs.isEmpty
    · have hlen : 0 < cs.length := by
        cases cs with
        | nil => simp at hcs
        | cons a as => simp
      simp only [Bool.false_eq_true, if_false, List.flatten_cons]
      rw [ih (cs.drop step) (by simp only [List.length_drop]; omega)]
      exact List.take_append_drop step cs
    · have : cs = [] := by
        cases cs with
        | nil => rfl
        | cons a as => simp at hcs
      subst this
      rfl

/-- Claim C1 counterexample: merging the single-element sequence
`[{"a": 0}]` does not reproduce the pair `("a", 0)` — the empty value 0 is
dropped and the result is the empty mapping, so not every key-value pair
of the record, empty values included, appears unchanged in the result. -/
theorem claim_C1_counterexample :
    merge_json_objects [[("a", JVal.num 0)]] = [] := rfl

/-- Claim C1 (amended): for a single-element input sequence `[r]` (with
distinct keys, as every genuine Python dict has), `merge_json_objects [r]`
equals `r` with the pairs whose values are empty (None, empty list, empty
dict, empty string, zero — and hence also False) removed, followed by the
final dedup pass on parties and clauses; in particular every pair of `r`
with a non-empty value appears unchanged. -/
theorem claim_C1_amended (r : JObj) (h : (r.map Prod.fst).Nodup) :
    merge_json_objects [r] = postprocess_contract (r.filter (fun kv => !isEmptyVal kv.2)) := by
  have h0 := foldl_mergeOne_nodup r [] (by simp) h
  simp only [merge_json_objects, List.isEmpty_cons, if_false, List.foldl_cons, List.foldl_nil]
  rw [h0]
  simp

/-- Claim C1 witness: the amended statement evaluated on the concrete
record `{"a": "x", "b": 0}`. -/
theorem claim_C1_witness :
    ([("a", JVal.str "x"), ("b", JVal.num 0)].map Prod.fst).Nodup ∧
    merge_json_objects [[("a", JVal.str "x"), ("b", JVal.num 0)]]
      = postprocess_contract
          ([("a", JVal.str "x"), ("b", JVal.num 0)].filter (fun kv => !isEmptyVal kv.2)) :=
  ⟨by decide, claim_C1_amended [("a", JVal.str "x"), ("b", JVal.num 0)] (by decide)⟩

/-- Claim C2: the replacement template of `_remove_trailing_commas` is the
raw string `r"\\1"`, whose escaped backslash makes it insert the literal
characters backslash and `1` instead of the captured closing bracket; the
cleaned text therefore stays unparsable and `fix_and_load` of the spec's
repair example returns None instead of the object. -/
theorem claim_C2_bug_evidence :
    fix_and_load "\x7b\"a\":1,\x7d" = none ∧
    remove_trailing_commas "\x7b\"a\":1,\x7d" = "\x7b\"a\":1\\1" :=
  ⟨rfl, rfl⟩

/-- Claim C3 counterexample: constructing the generic shape from a mapping
with the unknown key `foo` succeeds, but `foo` is discarded — the
resulting record's `custom_fields` is empty, not `{"foo": "bar"}`, so
unknown keys are not routed into `custom_fields`. -/
theorem claim_C3_counterexample :
    mkGenericContractSchema [("contract_type", JVal.str "x"), ("foo", JVal.str "bar")]
      = .ok ⟨"x", [], none, none, none, none, [], []⟩ := rfl

/-- Claim C3 (amended): pydantic's default `extra="ignore"` makes the
generic construction depend only on the declared fields — restricting the
input mapping to the declared keys changes nothing, so unknown keys never
cause a failure and are discarded rather than routed into
`custom_fields` (which only ever holds an explicitly passed
`custom_fields` entry). -/
theorem claim_C3_amended (data : JObj) :
    mkGenericContractSchema data
      = mkGenericContractSchema (data.filter (fun kv => genericFieldKeys.contains kv.1)) := by
  have h : ∀ k : String, genericFieldKeys.contains k = true →
      lookupJ (data.filter (fun kv => genericFieldKeys.contains kv.1)) k = lookupJ data k :=
    fun k hk => lookupJ_filter data _ k (fun _ => hk)
  simp only [mkGenericContractSchema, mkGenericFrom]
  rw [h "contract_type" (by decide), h "parties" (by decide), h "effective_date" (by decide),
    h "termination_date" (by decide), h "governing_law" (by decide),
    h "renewal_terms" (by decide), h "clauses" (by decide), h "custom_fields" (by decide)]

/-- Claim C4: whenever the oracle's raw text is unparsable even after
extraction and the repair heuristics, the single-chunk extraction does
not raise and returns the fallback record, whose `contract_type` is
"unknown" and whose `parties` is empty. -/
theorem claim_C4_fallback (raw : String)
    (h : fix_and_load (single_blob raw) = none) :
    extract_single_record raw = .ok ⟨fallback_record, []⟩ ∧
    fallback_record.contract_type = "unknown" ∧ fallback_record.parties = [] := by
  refine ⟨?_, rfl, rfl⟩
  simp only [extract_single_record, h]

/-- Claim C4 witness: the fallback behaviour on the concrete unparsable
oracle response "garbage text". -/
theorem claim_C4_witness :
    fix_and_load (single_blob "garbage text") = none ∧
    (extract_single_record "garbage text" = .ok ⟨fallback_record, []⟩ ∧
     fallback_record.contract_type = "unknown" ∧ fallback_record.parties = []) :=
  ⟨rfl, claim_C4_fallback "garbage text" rfl⟩

/-- Claim C5: merge is order-dependent under first-non-empty-wins — on two
records giving the same key distinct non-empty scalars, the first record's
value is retained and the second silently dropped, and reversing the
input order flips the result. -/
theorem claim_C5_order_dependent :
    merge_json_objects [[("a", JVal.str "first")], [("a", JVal.str "second")]]
      = [("a", JVal.str "first")] ∧
    merge_json_objects [[("a", JVal.str "second")], [("a", JVal.str "first")]]
      = [("a", JVal.str "second")] :=
  ⟨rfl, rfl⟩

/-- Claim C6: when both values are sequences, merge concatenates and
deduplicates by canonical-JSON structural equality preserving first-seen
order: `_dedup_list` computes exactly the first-occurrence filter keyed by
`json.dumps(·, sort_keys=True)` (so two differently-ordered dicts with
equal sorted serializations are duplicates), and the spec's list example
merges to `["x", "y", "z"]`. -/
theorem claim_C6_list_merge :
    merge_json_objects
        [[("tags", JVal.arr [JVal.str "x", JVal.str "y"])],
         [("tags", JVal.arr [JVal.str "y", JVal.str "z"])]]
      = [("tags", JVal.arr [JVal.str "x", JVal.str "y", JVal.str "z"])] ∧
    (∀ l : List JVal, dedup_list l = dedupSpecGo dumps (fun _ => true) l) ∧
    dedup_list [JVal.obj [("a", JVal.num 1), ("b", JVal.num 2)],
                JVal.obj [("b", JVal.num 2), ("a", JVal.num 1)]]
      = [JVal.obj [("a", JVal.num 1), ("b", JVal.num 2)]] := by
  refine ⟨rfl, fun l => ?_, rfl⟩
  have h := dedupGo_eq_spec dumps (fun _ => true) l []
  simpa [dedup_list, memKey] using h

/-- Claim C7: in degraded (character) mode, for every text and positive
token budget, concatenating the chunks of `split_by_tokens` reconstructs
the text exactly, and the empty text splits into no chunks. -/
theorem claim_C7_roundtrip (T : String) (L : Nat) (h : 0 < L) :
    String.join (split_by_tokens_degraded T L) = T ∧
    split_by_tokens_degraded "" L = [] := by
  constructor
  · have hflat := pySlicesGo_flatten (L * 4) (by omega) T.data.length T.data (Nat.le_refl _)
    show List.foldl (· ++ ·) "" ((pySlicesGo T.data.length T.data (L * 4)).map String.mk) = T
    rw [show ("" : String) = String.mk [] from rfl, foldl_append_mkString, hflat]
    simp
  · rfl

/-- Claim C7 witness: the round trip evaluated at "hello world" with
budget 2. -/
theorem claim_C7_witness :
    String.join (split_by_tokens_degraded "hello world" 2) = "hello world" ∧
    split_by_tokens_degraded "" 2 = [] :=
  claim_C7_roundtrip "hello world" 2 (by decide)

/-- Claim C8: the final party dedup identifies parties by lower-cased
trimmed name with the first occurrence winning: `_dedup_parties` is the
first-occurrence filter keyed by the lower-cased trimmed name (dropping
empty names), and merging records with parties "Acme" and "ACME " keeps
exactly the first entry. -/
theorem claim_C8_party_dedup :
    merge_json_objects
        [[("parties", JVal.arr [JVal.obj [("name", JVal.str "Acme")]])],
         [("parties", JVal.arr [JVal.obj [("name", JVal.str "ACME ")]])]]
      = [("parties", JVal.arr [JVal.obj [("name", JVal.str "Acme")]])] ∧
    (∀ ps : List JVal, dedup_parties ps = dedupSpecGo partyKeyOf (fun k => !k.isEmpty) ps) := by
  refine ⟨rfl, fun ps => ?_⟩
  have h := dedupGo_eq_spec partyKeyOf (fun k => !k.isEmpty) ps []
  simpa [dedup_parties, memKey] using h

/-- Claim C9: the boolean False is an empty value for the merge (the
membership test uses equality and `False == 0`), so False-valued pairs
never seed the accumulator and never overwrite: deleting them from every
input record leaves the merge unchanged, and `merge([{"non_compete":
false}])` is the empty mapping. -/
theorem claim_C9_false_is_empty :
    (∀ objs : List JObj,
      merge_json_objects objs
        = merge_json_objects (objs.map (fun o => o.filter (fun kv => !isFalseLit kv.2)))) ∧
    merge_json_objects [[("non_compete", JVal.bool false)]] = [] := by
  constructor
  · intro objs
    cases objs with
    | nil => rfl
    | cons o os =>
      have hfoldl := foldl_objs_filter_false (o :: os) []
      simp only [List.map_cons] at hfoldl
      simp only [merge_json_objects, List.map_cons, List.isEmpty_cons, if_false]
      rw [hfoldl]
  · rfl

/-- Claim C10 counterexample: for the input "null" the direct parse
succeeds (with JSON null), yet `fix_and_load` returns None — the Python
image of a parsed JSON null is the very value None that also signals
failure — so "returns None exactly when both parses fail" is false of
the program. -/
theorem claim_C10_counterexample :
    fix_and_load "null" = none ∧ loads "null" = some JVal.null :=
  ⟨rfl, rfl⟩

/-- Claim C10 (amended): `fix_and_load` returns whatever JSON value a
successful parse produces, not only objects — a list for "[1, 2]", a
number for "3" — and it returns None exactly when the direct parse
yields JSON null, or the direct parse fails and the parse of the
heuristic-cleaned text fails or yields JSON null (a parsed null is
returned as the Python value None, indistinguishable from the failure
result). -/
theorem claim_C10_amended :
    fix_and_load "[1, 2]" = some (JVal.arr [JVal.num 1, JVal.num 2]) ∧
    fix_and_load "3" = some (JVal.num 3) ∧
    ∀ blob : String,
      (fix_and_load blob = none ↔
        (loads blob = some JVal.null ∨
         (loads blob = none ∧
          (loads (clean_steps blob) = none ∨ loads (clean_steps blob) = some JVal.null)))) := by
  refine ⟨rfl, rfl, fun blob => ?_⟩
  cases h : loads blob with
  | some v =>
    cases v with
    | null => simp [fix_and_load, h, collapseNull]
    | bool b => simp [fix_and_load, h, collapseNull]
    | num n => simp [fix_and_load, h, collapseNull]
    | str s => simp [fix_and_load, h, collapseNull]
    | arr xs => simp [fix_and_load, h, collapseNull]
    | obj fs => simp [fix_and_load, h, collapseNull]
  | none =>
    cases h2 : loads (clean_steps blob) with
    | some v =>
      cases v with
      | null => simp [fix_and_load, h, h2, collapseNull]
      | bool b => simp [fix_and_load, h, h2, collapseNull]
      | num n => simp [fix_and_load, h, h2, collapseNull]
      | str s => simp [fix_and_load, h, h2, collapseNull]
      | arr xs => simp [fix_and_load, h, h2, collapseNull]
      | obj fs => simp [fix_and_load, h, h2, collapseNull]
    | none => simp [fix_and_load, h, h2, collapseNull]
